import Mathlib

/-!
# Consensus test doubles of `pkg/consensus/testing.go`

A shallow embedding of the fake ticket machine, the failing ticket validator,
the fake chain randomness and the fake ticket sampler, followed by the
properties of the specification that concern them.

Conventions of the embedding:

* a Go `[]byte` is a `List byte`, a byte being a number below 256;
* a Go `(T, error)` result is an `Except String T`, a bare `error` result is an
  `Except String Unit` whose `.ok ()` is the `nil` error;
* a Go pointer argument that may be `nil` is an `Option`;
* Go `uint` is a natural number and Go `int64` (`abi.ChainEpoch`,
  `crypto.DomainSeparationTag`) is an integer. The code only prints these
  numbers, it performs no arithmetic on them, so no wrap-around can occur and
  every statement proved for all naturals (integers) holds in particular for
  the 64-bit values;
* `context.Context` and `types.Signer` are interfaces whose values are never
  inspected by this file; they are type parameters.
-/

namespace Consensus

/-! ## Data model -/

deriving instance DecidableEq for Except

/-- Go `byte`: an unsigned 8-bit value. -/
abbrev byte := Fin 256

/-- Go `abi.ChainEpoch`, declared as `int64` in go-state-types. -/
abbrev ChainEpoch := Int

/-- Go `crypto.DomainSeparationTag`, declared as `int64` in go-state-types. -/
abbrev DomainSeparationTag := Int

/-- The tag `DomainSeparationTag_TicketProduction` of go-state-types. -/
def DomainSeparationTag_TicketProduction : DomainSeparationTag := 1

/-- The tag `DomainSeparationTag_ElectionProofProduction` of go-state-types. -/
def DomainSeparationTag_ElectionProofProduction : DomainSeparationTag := 2

/-- Modelled from the spec: `block.TipSetKey` is declared in `pkg/block`, which
is not part of the sources at hand. The spec describes it as an ordered set of
block-identifier hashes; each identifier is kept as its bytes. -/
structure TipSetKey where
  cids : List (List byte)
  deriving DecidableEq, Repr

/-- Modelled from the spec: `block.BeaconEntry` is declared in `pkg/block`. The
spec gives it a round number and the signature/value bytes. -/
structure BeaconEntry where
  Round : Nat
  Data : List byte
  deriving DecidableEq, Repr

/-- Modelled from the spec: `block.Ticket` is declared in `pkg/block`. The spec
gives it the single field `VRFProof`, a byte sequence. -/
structure Ticket where
  VRFProof : List byte
  deriving DecidableEq, Repr

/-- Go `address.Address` of go-address: a wrapper around the address bytes. -/
structure Address where
  str : List byte
  deriving DecidableEq, Repr

/-- The receiver type `FakeTicketMachine struct{}`. -/
structure FakeTicketMachine where
  deriving DecidableEq, Repr

/-- The receiver type `FailingTicketValidator struct{}`. -/
structure FailingTicketValidator where
  deriving DecidableEq, Repr

/-- The receiver type `FakeChainRandomness struct { Seed uint }`. -/
structure FakeChainRandomness where
  Seed : Nat
  deriving DecidableEq, Repr

/-- The receiver type `FakeSampler struct { Seed uint }`. -/
structure FakeSampler where
  Seed : Nat
  deriving DecidableEq, Repr

/-! ## Formatting (`fmt.Sprintf` with the verbs `%d` and `%s`) -/

/-- The bytes of an ASCII string literal of the source. -/
def bytesOf (s : String) : List byte :=
  s.toList.map (fun c => ⟨c.toNat % 256, Nat.mod_lt _ (by decide)⟩)

/-- The ASCII digit `byte('0' + d)`. -/
def digitByte (d : Nat) : byte := ⟨(48 + d) % 256, Nat.mod_lt _ (by decide)⟩

/-- The digit loop of `fmt`'s integer formatting in base ten:
`for u >= 10 { next := u / 10; buf[i] = byte('0' + u - next*10); u = next }`
followed by the write of the last digit. The buffer is filled from its end, so
each digit is put in front of `buf`. The first argument bounds the number of
iterations; `fmtUint` starts it at `u`, which is never exhausted. -/
def fmtDecLoop : Nat → Nat → List byte → List byte
  | 0, u, buf => digitByte u :: buf
  | fuel + 1, u, buf =>
    if 10 ≤ u then fmtDecLoop fuel (u / 10) (digitByte (u - u / 10 * 10) :: buf)
    else digitByte u :: buf

/-- The verb `%d` on an unsigned integer: its decimal digits. -/
def fmtUint (u : Nat) : List byte := fmtDecLoop u u []

/-- The verb `%d` on a signed integer: a minus sign (byte 45) for a negative
number, then the decimal digits of the magnitude. -/
def fmtInt (x : Int) : List byte :=
  if x < 0 then (⟨45, by decide⟩ : byte) :: fmtUint x.natAbs else fmtUint x.natAbs

/-- The comma (byte 44), the separator of the fields of the formatted string. -/
def comma : byte := ⟨44, by decide⟩

/-- Reads a sequence of ASCII digits back as a number. -/
def decVal (bs : List byte) : Nat :=
  bs.foldl (fun acc b => 10 * acc + (b.val - 48)) 0

/-! ## The functions of `testing.go` -/

section Code

variable {Context Signer : Type}

/-- Go `MakeFakeTicketForTest`: `val := make([]byte, 65); val[0] = 200`, wrapped
in a ticket. -/
def MakeFakeTicketForTest : Ticket :=
  { VRFProof := (List.replicate 65 (0 : byte)).set 0 200 }

/-- Go `MakeFakeVRFProofForTest`: `proof := make([]byte, 65); proof[0] = 42`. -/
def MakeFakeVRFProofForTest : List byte :=
  (List.replicate 65 (0 : byte)).set 0 42

/-- Go method `FakeTicketMachine.MakeTicket`: returns `MakeFakeTicketForTest(), nil`. -/
def FakeTicketMachine.MakeTicket (_ftm : FakeTicketMachine) (_ctx : Context)
    (_base : TipSetKey) (_epoch : ChainEpoch) (_miner : Address)
    (_entry : Option BeaconEntry) (_newPeriod : Bool) (_worker : Address)
    (_signer : Signer) : Except String Ticket :=
  .ok MakeFakeTicketForTest

/-- Go method `FakeTicketMachine.IsValidTicket`: returns `nil`. -/
def FakeTicketMachine.IsValidTicket (_ftm : FakeTicketMachine) (_ctx : Context)
    (_base : TipSetKey) (_entry : Option BeaconEntry) (_newPeriod : Bool)
    (_epoch : ChainEpoch) (_miner : Address) (_workerSigner : Address)
    (_ticket : Ticket) : Except String Unit :=
  .ok ()

/-- Go method `FailingTicketValidator.IsValidTicket`: returns
`fmt.Errorf("invalid ticket")`. -/
def FailingTicketValidator.IsValidTicket (_ftv : FailingTicketValidator)
    (_ctx : Context) (_base : TipSetKey) (_entry : Option BeaconEntry)
    (_newPeriod : Bool) (_epoch : ChainEpoch) (_miner : Address)
    (_workerSigner : Address) (_ticket : Ticket) : Except String Unit :=
  .error "invalid ticket"

/-- Go method `FakeChainRandomness.SampleChainRandomness`: returns
`[]byte(fmt.Sprintf("s=%d,e=%d,t=%d,p=%s", s.Seed, epoch, tag, string(entropy))), nil`.
The conversions `string(entropy)` and `[]byte(...)` copy the bytes unchanged. -/
def FakeChainRandomness.SampleChainRandomness (s : FakeChainRandomness)
    (_ctx : Context) (_key : TipSetKey) (tag : DomainSeparationTag)
    (epoch : ChainEpoch) (entropy : List byte) : Except String (List byte) :=
  .ok (bytesOf "s=" ++ fmtUint s.Seed ++ bytesOf ",e=" ++ fmtInt epoch
        ++ bytesOf ",t=" ++ fmtInt tag ++ bytesOf ",p=" ++ entropy)

/-- Go method `FakeChainRandomness.ChainGetRandomnessFromBeacon`: returns
`[]byte(""), nil`. -/
def FakeChainRandomness.ChainGetRandomnessFromBeacon (_s : FakeChainRandomness)
    (_ctx : Context) (_tsk : TipSetKey) (_personalization : DomainSeparationTag)
    (_randEpoch : ChainEpoch) (_entropy : List byte) : Except String (List byte) :=
  .ok (bytesOf "")

/-- Go method `FakeSampler.SampleTicket`: returns the ticket whose proof is
`[]byte(fmt.Sprintf("s=%d,e=%d", s.Seed, epoch))`, and `nil`. -/
def FakeSampler.SampleTicket (s : FakeSampler) (_ctx : Context)
    (_key : TipSetKey) (epoch : ChainEpoch) : Except String Ticket :=
  .ok { VRFProof := bytesOf "s=" ++ fmtUint s.Seed ++ bytesOf ",e=" ++ fmtInt epoch }

end Code

/-! ## Vocabulary of the properties -/

/-- The number of bit positions (0 to 7) at which two bytes differ. -/
def bitDistance (a b : byte) : Nat :=
  (List.range 8).countP (fun i => decide (a.val / 2 ^ i % 2 ≠ b.val / 2 ^ i % 2))

/-- Two byte sequences of equal length that differ in exactly one bit. -/
def singleBitMutation (p q : List byte) : Bool :=
  decide (p.length = q.length) &&
    decide (((List.zipWith bitDistance p q).sum) = 1)

/-- The fake ticket with the lowest bit of its first proof byte flipped: the
byte 200 becomes 201, the other 64 bytes stay zero. -/
def flippedFakeTicket : Ticket :=
  { VRFProof := MakeFakeTicketForTest.VRFProof.set 0 201 }

/-! ## Decimal formatting: read-back, digits, injectivity -/

theorem digitByte_val {d : Nat} (h : d < 10) : (digitByte d).val = 48 + d := by
  simp only [digitByte]
  omega

theorem fmtDecLoop_buf (fuel u : Nat) (buf : List byte) :
    fmtDecLoop fuel u buf = fmtDecLoop fuel u [] ++ buf := by
  induction fuel generalizing u buf with
  | zero => simp [fmtDecLoop]
  | succ n ih =>
    simp only [fmtDecLoop]
    split
    · rw [ih (u / 10) (digitByte (u - u / 10 * 10) :: buf),
        ih (u / 10) [digitByte (u - u / 10 * 10)]]
      simp
    · simp

theorem decVal_snoc (xs : List byte) (b : byte) :
    decVal (xs ++ [b]) = 10 * decVal xs + (b.val - 48) := by
  simp [decVal, List.foldl_append]

theorem decVal_fmtDecLoop (fuel u : Nat) (h : u ≤ fuel) :
    decVal (fmtDecLoop fuel u []) = u := by
  induction fuel generalizing u with
  | zero =>
    have hu : u = 0 := by omega
    subst hu
    decide
  | succ n ih =>
    simp only [fmtDecLoop]
    split
    · rename_i h10
      rw [fmtDecLoop_buf, decVal_snoc, ih (u / 10) (by omega),
        digitByte_val (by omega)]
      omega
    · rename_i h10
      have hlt : u < 10 := by omega
      simp only [decVal, List.foldl_cons, List.foldl_nil, digitByte_val hlt]
      omega

/-- Reading the decimal digits of a number back gives the number. -/
theorem decVal_fmtUint (u : Nat) : decVal (fmtUint u) = u :=
  decVal_fmtDecLoop u u (Nat.le_refl u)

theorem fmtUint_injective {a b : Nat} (h : fmtUint a = fmtUint b) : a = b := by
  have := congrArg decVal h
  simpa [decVal_fmtUint] using this

theorem fmtDecLoop_digits (fuel u : Nat) (buf : List byte) (h : u ≤ fuel)
    (b : byte) (hb : b ∈ fmtDecLoop fuel u buf) :
    b ∈ buf ∨ (48 ≤ b.val ∧ b.val ≤ 57) := by
  induction fuel generalizing u buf with
  | zero =>
    have hu : u = 0 := by omega
    subst hu
    simp only [fmtDecLoop, List.mem_cons] at hb
    rcases hb with rfl | hb
    · right; decide
    · left; exact hb
  | succ n ih =>
    simp only [fmtDecLoop] at hb
    split at hb
    · rcases ih (u / 10) _ (by omega) hb with h1 | h1
      · rcases List.mem_cons.mp h1 with rfl | h2
        · right
          rw [digitByte_val (by omega)]
          omega
        · left; exact h2
      · right; exact h1
    · rcases List.mem_cons.mp hb with rfl | h2
      · right
        rw [digitByte_val (by omega)]
        omega
      · left; exact h2

/-- Every byte printed for an unsigned integer is an ASCII digit. -/
theorem fmtUint_digits {u : Nat} {b : byte} (hb : b ∈ fmtUint u) :
    48 ≤ b.val ∧ b.val ≤ 57 := by
  rcases fmtDecLoop_digits u u [] (Nat.le_refl u) b hb with h | h
  · simp at h
  · exact h

theorem fmtDecLoop_ne_nil (fuel u : Nat) (buf : List byte) :
    fmtDecLoop fuel u buf ≠ [] := by
  rw [fmtDecLoop_buf]
  cases fuel with
  | zero => simp [fmtDecLoop]
  | succ n =>
    simp only [fmtDecLoop]
    split
    · rw [fmtDecLoop_buf]; simp
    · simp

theorem fmtUint_length_pos (u : Nat) : 1 ≤ (fmtUint u).length := by
  have h := fmtDecLoop_ne_nil u u []
  cases hl : fmtUint u with
  | nil => exact absurd hl h
  | cons x xs => simp

/-- Every byte printed for a signed integer is an ASCII digit or the minus
sign. -/
theorem fmtInt_bytes {x : Int} {b : byte} (hb : b ∈ fmtInt x) :
    b.val = 45 ∨ (48 ≤ b.val ∧ b.val ≤ 57) := by
  unfold fmtInt at hb
  split at hb
  · rcases List.mem_cons.mp hb with rfl | h
    · left; rfl
    · right; exact fmtUint_digits h
  · right; exact fmtUint_digits hb

theorem fmtInt_injective {x y : Int} (h : fmtInt x = fmtInt y) : x = y := by
  unfold fmtInt at h
  split at h <;> split at h
  · have := fmtUint_injective (List.cons.inj h).2
    omega
  · have hm : (⟨45, by decide⟩ : byte) ∈ fmtUint y.natAbs := by
      rw [← h]; exact List.mem_cons_self _ _
    have := fmtUint_digits hm
    simp at this
  · have hm : (⟨45, by decide⟩ : byte) ∈ fmtUint x.natAbs := by
      rw [h]; exact List.mem_cons_self _ _
    have := fmtUint_digits hm
    simp at this
  · have := fmtUint_injective h
    omega

theorem comma_not_mem_fmtUint (u : Nat) : comma ∉ fmtUint u := by
  intro h
  exact absurd (fmtUint_digits h) (by decide)

theorem comma_not_mem_fmtInt (x : Int) : comma ∉ fmtInt x := by
  intro h
  exact absurd (fmtInt_bytes h) (by decide)

/-- Two sequences free of a separator, each followed by the separator and a
rest, are equal as wholes only if the sequences and the rests are equal. -/
theorem split_at_separator {α : Type} (c : α) :
    ∀ (xs ys r r' : List α), c ∉ xs → c ∉ ys →
      xs ++ c :: r = ys ++ c :: r' → xs = ys ∧ r = r'
  | [], [], r, r', _, _, h => ⟨rfl, (List.cons.inj h).2⟩
  | [], y :: ys, _, _, _, hy, h => by
    have : c = y := (List.cons.inj h).1
    exact absurd (this ▸ List.mem_cons_self _ _) hy
  | x :: xs, [], _, _, hx, _, h => by
    have : x = c := (List.cons.inj h).1
    exact absurd (this ▸ List.mem_cons_self _ _) hx
  | x :: xs, y :: ys, r, r', hx, hy, h => by
    have h1 := List.cons.inj h
    have ih := split_at_separator c xs ys r r'
      (fun hm => hx (List.mem_cons_of_mem _ hm))
      (fun hm => hy (List.mem_cons_of_mem _ hm)) h1.2
    exact ⟨by rw [h1.1, ih.1], ih.2⟩

/-! ## Sanity checks of the formatting model against Go's output -/

theorem fmtUint_zero : fmtUint 0 = bytesOf "0" := by decide

theorem fmtUint_max_uint64 :
    fmtUint 18446744073709551615 = bytesOf "18446744073709551615" := by decide

theorem fmtInt_min_int64 :
    fmtInt (-9223372036854775808) = bytesOf "-9223372036854775808" := by decide

theorem sampleChainRandomness_example :
    (FakeChainRandomness.SampleChainRandomness ⟨7⟩ () ⟨[]⟩ 2 (-3) [44, 61]
      : Except String (List byte)) = .ok (bytesOf "s=7,e=-3,t=2,p=,=") := by decide

theorem sampleTicket_example :
    (FakeSampler.SampleTicket ⟨7⟩ () ⟨[]⟩ 10 : Except String Ticket)
      = .ok ⟨bytesOf "s=7,e=10"⟩ := by decide

/-! ## Injectivity of the formatted randomness -/

theorem bytesOf_comma_e : bytesOf ",e=" = comma :: bytesOf "e=" := by decide

theorem bytesOf_comma_t : bytesOf ",t=" = comma :: bytesOf "t=" := by decide

theorem bytesOf_comma_p : bytesOf ",p=" = comma :: bytesOf "p=" := by decide

/-- The four fields can be read off the formatted bytes: equal outputs come
from equal seeds, epochs, tags and entropies. -/
theorem formatted_injective {s1 s2 : Nat} {e1 e2 t1 t2 : Int} {p1 p2 : List byte}
    (h : bytesOf "s=" ++ fmtUint s1 ++ bytesOf ",e=" ++ fmtInt e1
          ++ bytesOf ",t=" ++ fmtInt t1 ++ bytesOf ",p=" ++ p1
        = bytesOf "s=" ++ fmtUint s2 ++ bytesOf ",e=" ++ fmtInt e2
          ++ bytesOf ",t=" ++ fmtInt t2 ++ bytesOf ",p=" ++ p2) :
    s1 = s2 ∧ e1 = e2 ∧ t1 = t2 ∧ p1 = p2 := by
  simp only [bytesOf_comma_e, bytesOf_comma_t, bytesOf_comma_p, List.append_assoc,
    List.cons_append] at h
  have h1 := split_at_separator comma _ _ _ _ (comma_not_mem_fmtUint s1)
    (comma_not_mem_fmtUint s2) (List.append_cancel_left h)
  have h2 := split_at_separator comma _ _ _ _ (comma_not_mem_fmtInt e1)
    (comma_not_mem_fmtInt e2) (List.append_cancel_left h1.2)
  have h3 := split_at_separator comma _ _ _ _ (comma_not_mem_fmtInt t1)
    (comma_not_mem_fmtInt t2) (List.append_cancel_left h2.2)
  exact ⟨fmtUint_injective h1.1, fmtInt_injective h2.1, fmtInt_injective h3.1,
    List.append_cancel_left h3.2⟩

theorem formatted_length (s : Nat) (e t : Int) (p : List byte) :
    (bytesOf "s=" ++ fmtUint s ++ bytesOf ",e=" ++ fmtInt e
        ++ bytesOf ",t=" ++ fmtInt t ++ bytesOf ",p=" ++ p).length
      = 11 + (fmtUint s).length + (fmtInt e).length + (fmtInt t).length + p.length := by
  have a : (bytesOf "s=").length = 2 := by decide
  have b : (bytesOf ",e=").length = 3 := by decide
  have c : (bytesOf ",t=").length = 3 := by decide
  have d : (bytesOf ",p=").length = 3 := by decide
  simp only [List.length_append, a, b, c, d]
  omega

/-! ## The claims -/

section Claims

variable {Context Signer : Type}

/-- C1, counterexample: two evaluators with the seeds 0 and 1, asked for the
same tip-set key, tag, epoch and entropy, return different bytes
(`s=0,e=10,t=1,p=` and `s=1,e=10,t=1,p=`). -/
theorem sampleChainRandomness_differs_across_seeds :
    (FakeChainRandomness.SampleChainRandomness ⟨0⟩ () ⟨[]⟩ 1 10 []
      : Except String (List byte))
      ≠ FakeChainRandomness.SampleChainRandomness ⟨1⟩ () ⟨[]⟩ 1 10 [] := by
  decide

/-- C1, amended: for every tip-set key, tag, epoch and entropy and every two
evaluators (called in any two contexts), both calls return without error, and
the two calls return identical bytes exactly when the two evaluators hold the
same seed. -/
theorem sampleChainRandomness_same_bytes_iff_same_seed
    (ev1 ev2 : FakeChainRandomness) (ctx1 ctx2 : Context) (key : TipSetKey)
    (tag : DomainSeparationTag) (epoch : ChainEpoch) (entropy : List byte) :
    (ev1.SampleChainRandomness ctx1 key tag epoch entropy).isOk = true
      ∧ (ev2.SampleChainRandomness ctx2 key tag epoch entropy).isOk = true
      ∧ (ev1.SampleChainRandomness ctx1 key tag epoch entropy
            = ev2.SampleChainRandomness ctx2 key tag epoch entropy
          ↔ ev1.Seed = ev2.Seed) := by
  refine ⟨rfl, rfl, ?_, ?_⟩
  · intro h
    simp only [FakeChainRandomness.SampleChainRandomness, Except.ok.injEq] at h
    exact (formatted_injective h).1
  · intro hseed
    simp only [FakeChainRandomness.SampleChainRandomness, hseed]

/-- C3: for all inputs `MakeTicket` returns a ticket without error, and
`IsValidTicket` of the fake ticket machine, called with the same base, entry,
newPeriod flag, epoch, miner and worker on that ticket, returns the nil
error. -/
theorem makeTicket_then_isValidTicket (ftm : FakeTicketMachine) (ctx : Context)
    (base : TipSetKey) (epoch : ChainEpoch) (miner : Address)
    (entry : Option BeaconEntry) (newPeriod : Bool) (worker : Address)
    (signer : Signer) :
    ∃ T : Ticket,
      ftm.MakeTicket ctx base epoch miner entry newPeriod worker signer = .ok T
        ∧ ftm.IsValidTicket ctx base entry newPeriod epoch miner worker T = .ok () :=
  ⟨MakeFakeTicketForTest, rfl, rfl⟩

/-- C4, counterexample: the ticket of `MakeTicket` is the fake ticket; the
ticket whose proof differs from it in exactly one bit (first byte 201 instead
of 200) is accepted by `IsValidTicket` of the same machine on the same
remaining inputs: the call returns the nil error, not an error. -/
theorem isValidTicket_accepts_flipped_bit :
    (FakeTicketMachine.MakeTicket ⟨⟩ () ⟨[[1]]⟩ 10 ⟨[2]⟩ none false ⟨[3]⟩ ()
        : Except String Ticket) = .ok MakeFakeTicketForTest
      ∧ singleBitMutation MakeFakeTicketForTest.VRFProof flippedFakeTicket.VRFProof = true
      ∧ (FakeTicketMachine.IsValidTicket ⟨⟩ () ⟨[[1]]⟩ none false 10 ⟨[2]⟩ ⟨[3]⟩
          flippedFakeTicket : Except String Unit) = .ok () := by
  decide

/-- C4, amended: for every ticket `T` produced by `MakeTicket` and every ticket
`T2` whose proof differs from the proof of `T` in exactly one bit,
`IsValidTicket` of the same ticket machine on the same remaining inputs returns
the nil error for `T2`: the fake machine accepts the mutated ticket. -/
theorem isValidTicket_accepts_mutation (ftm : FakeTicketMachine) (ctx : Context)
    (base : TipSetKey) (epoch : ChainEpoch) (miner : Address)
    (entry : Option BeaconEntry) (newPeriod : Bool) (worker : Address)
    (signer : Signer) (T T2 : Ticket)
    (_hT : ftm.MakeTicket ctx base epoch miner entry newPeriod worker signer = .ok T)
    (_hmut : singleBitMutation T.VRFProof T2.VRFProof = true) :
    ftm.IsValidTicket ctx base entry newPeriod epoch miner worker T2 = .ok () :=
  rfl

theorem isValidTicket_accepts_mutation_witness :
    ((FakeTicketMachine.MakeTicket ⟨⟩ () ⟨[[1]]⟩ 10 ⟨[2]⟩ none false ⟨[3]⟩ ()
        : Except String Ticket) = .ok MakeFakeTicketForTest
      ∧ singleBitMutation MakeFakeTicketForTest.VRFProof flippedFakeTicket.VRFProof = true)
      ∧ (FakeTicketMachine.IsValidTicket ⟨⟩ () ⟨[[1]]⟩ none false 10 ⟨[2]⟩ ⟨[3]⟩
          flippedFakeTicket : Except String Unit) = .ok () :=
  ⟨⟨rfl, by decide⟩,
    isValidTicket_accepts_mutation ⟨⟩ () ⟨[[1]]⟩ 10 ⟨[2]⟩ none false ⟨[3]⟩ ()
      MakeFakeTicketForTest flippedFakeTicket rfl (by decide)⟩

/-- C5, counterexample: with the same seed, key, tag and epoch, the empty
entropy gives 14 bytes (`s=1,e=1,t=1,p=`) and a one-byte entropy gives 15. -/
theorem sampleChainRandomness_length_varies :
    (FakeChainRandomness.SampleChainRandomness ⟨1⟩ () ⟨[]⟩ 1 1 []
        : Except String (List byte)).map List.length
      ≠ (FakeChainRandomness.SampleChainRandomness ⟨1⟩ () ⟨[]⟩ 1 1 [0]
        : Except String (List byte)).map List.length := by
  decide

/-- C5, amended: the length of the byte sequence returned by
`SampleChainRandomness` is 11 (the fixed characters `s=`, `,e=`, `,t=`, `,p=`)
plus the number of characters of the decimal seed, epoch and tag, plus the
length of the entropy; it does not depend on the tip-set key or the context,
and it grows by one with each byte of entropy. -/
theorem sampleChainRandomness_length (ev : FakeChainRandomness) (ctx : Context)
    (key : TipSetKey) (tag : DomainSeparationTag) (epoch : ChainEpoch)
    (entropy : List byte) :
    (ev.SampleChainRandomness ctx key tag epoch entropy).map List.length
      = .ok (11 + (fmtUint ev.Seed).length + (fmtInt epoch).length
              + (fmtInt tag).length + entropy.length) := by
  simp only [FakeChainRandomness.SampleChainRandomness, Except.map, formatted_length]

/-- C6: the ticket of `MakeFakeTicketForTest` has a proof of exactly 65 bytes;
for every input `MakeTicket` returns, without error, a ticket whose proof has
exactly 65 bytes; for every seed, context, tip-set key and epoch `SampleTicket`
returns, without error, a ticket whose proof has at least one byte. -/
theorem tickets_have_nonempty_proof :
    MakeFakeTicketForTest.VRFProof.length = 65
      ∧ (∀ (ftm : FakeTicketMachine) (ctx : Context) (base : TipSetKey)
          (epoch : ChainEpoch) (miner : Address) (entry : Option BeaconEntry)
          (newPeriod : Bool) (worker : Address) (signer : Signer),
          ∃ T : Ticket,
            ftm.MakeTicket ctx base epoch miner entry newPeriod worker signer = .ok T
              ∧ T.VRFProof.length = 65)
      ∧ (∀ (s : FakeSampler) (ctx : Context) (key : TipSetKey) (epoch : ChainEpoch),
          ∃ T : Ticket,
            s.SampleTicket ctx key epoch = .ok T ∧ 1 ≤ T.VRFProof.length) := by
  refine ⟨by decide, ?_, ?_⟩
  · intro ftm ctx base epoch miner entry newPeriod worker signer
    exact ⟨MakeFakeTicketForTest, rfl, by decide⟩
  · intro s ctx key epoch
    refine ⟨_, rfl, ?_⟩
    have a : (bytesOf "s=").length = 2 := by decide
    simp only [List.length_append, a]
    omega

/-- C7, counterexample: the ticket-production tag and the election-proof tag
are distinct, yet with all other inputs equal `ChainGetRandomnessFromBeacon`
returns the same bytes for both. -/
theorem chainGetRandomnessFromBeacon_same_for_two_tags :
    DomainSeparationTag_TicketProduction ≠ DomainSeparationTag_ElectionProofProduction
      ∧ (FakeChainRandomness.ChainGetRandomnessFromBeacon ⟨7⟩ () ⟨[[1]]⟩
          DomainSeparationTag_TicketProduction 10 [1, 2] : Except String (List byte))
        = FakeChainRandomness.ChainGetRandomnessFromBeacon ⟨7⟩ () ⟨[[1]]⟩
          DomainSeparationTag_ElectionProofProduction 10 [1, 2] := by
  decide

/-- C7, amended: for every evaluator, context, tip-set key, epoch and entropy
and every two domain tags, `ChainGetRandomnessFromBeacon` returns without
error the empty byte sequence for each tag, hence the same bytes for both. -/
theorem chainGetRandomnessFromBeacon_empty (ev : FakeChainRandomness)
    (ctx : Context) (key : TipSetKey) (epoch : ChainEpoch) (entropy : List byte)
    (t1 t2 : DomainSeparationTag) :
    ev.ChainGetRandomnessFromBeacon ctx key t1 epoch entropy = .ok []
      ∧ ev.ChainGetRandomnessFromBeacon ctx key t2 epoch entropy = .ok []
      ∧ ev.ChainGetRandomnessFromBeacon ctx key t1 epoch entropy
          = ev.ChainGetRandomnessFromBeacon ctx key t2 epoch entropy :=
  ⟨rfl, rfl, rfl⟩

/-- C8: for every evaluator, tag, epoch and entropy, any two tip-set keys and
any two contexts give the same result; the returned bytes are a function of the
seed, tag, epoch and entropy only. -/
theorem sampleChainRandomness_ignores_chain_head :
    (∀ (ev : FakeChainRandomness) (ctx1 ctx2 : Context) (k1 k2 : TipSetKey)
        (tag : DomainSeparationTag) (epoch : ChainEpoch) (entropy : List byte),
        ev.SampleChainRandomness ctx1 k1 tag epoch entropy
          = ev.SampleChainRandomness ctx2 k2 tag epoch entropy)
      ∧ ∃ f : Nat → DomainSeparationTag → ChainEpoch → List byte → List byte,
          ∀ (ev : FakeChainRandomness) (ctx : Context) (key : TipSetKey)
            (tag : DomainSeparationTag) (epoch : ChainEpoch) (entropy : List byte),
            ev.SampleChainRandomness ctx key tag epoch entropy
              = .ok (f ev.Seed tag epoch entropy) :=
  ⟨fun _ _ _ _ _ _ _ _ => rfl,
    fun seed tag epoch entropy =>
      bytesOf "s=" ++ fmtUint seed ++ bytesOf ",e=" ++ fmtInt epoch
        ++ bytesOf ",t=" ++ fmtInt tag ++ bytesOf ",p=" ++ entropy,
    fun _ _ _ _ _ _ => rfl⟩

/-- C9: for every context, base key, beacon entry (absent or present),
newPeriod flag, epoch, miner, worker and ticket, `IsValidTicket` of the failing
validator returns the error `invalid ticket`; it never returns the nil error.
In particular it rejects the ticket made by the fake ticket machine. -/
theorem failingTicketValidator_rejects_all (ftv : FailingTicketValidator)
    (ctx : Context) (base : TipSetKey) (entry : Option BeaconEntry)
    (newPeriod : Bool) (epoch : ChainEpoch) (miner worker : Address)
    (ticket : Ticket) :
    ftv.IsValidTicket ctx base entry newPeriod epoch miner worker ticket
        = .error "invalid ticket"
      ∧ ftv.IsValidTicket ctx base entry newPeriod epoch miner worker ticket ≠ .ok ()
      ∧ ftv.IsValidTicket ctx base entry newPeriod epoch miner worker
          MakeFakeTicketForTest ≠ .ok () := by
  refine ⟨rfl, ?_, ?_⟩ <;> simp [FailingTicketValidator.IsValidTicket]

/-- C10: if evaluator with seed `s1` on `(e1, t1, p1)` returns the same bytes
as evaluator with seed `s2` on `(e2, t2, p2)` (any contexts and tip-set keys),
then `s1 = s2`, `e1 = e2`, `t1 = t2` and `p1 = p2`. The entropy may hold any
bytes (commas, digits, `=`) and epoch and tag may be negative. -/
theorem sampleChainRandomness_injective (s1 s2 : Nat) (ctx1 ctx2 : Context)
    (k1 k2 : TipSetKey) (e1 e2 : ChainEpoch) (t1 t2 : DomainSeparationTag)
    (p1 p2 : List byte)
    (h : FakeChainRandomness.SampleChainRandomness ⟨s1⟩ ctx1 k1 t1 e1 p1
          = FakeChainRandomness.SampleChainRandomness ⟨s2⟩ ctx2 k2 t2 e2 p2) :
    s1 = s2 ∧ e1 = e2 ∧ t1 = t2 ∧ p1 = p2 := by
  simp only [FakeChainRandomness.SampleChainRandomness, Except.ok.injEq] at h
  exact formatted_injective h

theorem sampleChainRandomness_injective_witness :
    (FakeChainRandomness.SampleChainRandomness ⟨12⟩ () ⟨[]⟩ (-3) (-40) [44, 101, 61, 53]
        : Except String (List byte))
        = FakeChainRandomness.SampleChainRandomness ⟨12⟩ () ⟨[[9]]⟩ (-3) (-40)
            [44, 101, 61, 53]
      ∧ ((12 : Nat) = 12 ∧ (-40 : ChainEpoch) = -40 ∧ (-3 : DomainSeparationTag) = -3
          ∧ ([44, 101, 61, 53] : List byte) = [44, 101, 61, 53]) :=
  ⟨rfl,
    sampleChainRandomness_injective 12 12 () () ⟨[]⟩ ⟨[[9]]⟩ (-40) (-40) (-3) (-3)
      [44, 101, 61, 53] [44, 101, 61, 53] rfl⟩

end Claims

end Consensus
